import Mathlib

set_option maxRecDepth 10000

/-! Verification development for the BCC950 camera controller
(`bcc950_control.py`). The Python string primitives used by the script
(`str.strip`, `str.split`, `int(...)`, f-string int formatting, text-mode
line reading) are embedded as executable functions on `List Char` / `String`,
and the controller operations (`load_config`, `save_config`, `zoom_in`,
`zoom_out`, `reset_position`, `find_camera`) are embedded on top of them.
Stateful control traffic is modelled as an explicit trace of commands, and
a raised Python exception is modelled as a `none` / `true` failure flag. -/

/-- ASCII whitespace characters removed by Python `str.strip()`. -/
def isPySpace (c : Char) : Bool :=
  c.toNat = 32 || c.toNat = 9 || c.toNat = 10 || c.toNat = 13 ||
  c.toNat = 11 || c.toNat = 12

/-- Python `str.strip()` on a character list. -/
def stripList (l : List Char) : List Char :=
  ((l.dropWhile isPySpace).reverse.dropWhile isPySpace).reverse

/-- Python `str.strip()`. -/
def pyStrip (s : String) : String := ⟨stripList s.toList⟩

/-- Python `str.split(sep)` with a one-character separator: splits at every
occurrence, `"".split(sep) = [""]`. -/
def splitChar (c : Char) : List Char → List (List Char)
  | [] => [[]]
  | x :: xs =>
    if x = c then [] :: splitChar c xs
    else
      match splitChar c xs with
      | [] => [[x]]
      | g :: gs => (x :: g) :: gs

/-- Python `str.split(sep, 1)`: the pieces before and after the first
occurrence of the separator (second component is `[]` when absent). -/
def splitFirstChar (c : Char) : List Char → List Char × List Char
  | [] => ([], [])
  | x :: xs =>
    if x = c then ([], xs)
    else
      let p := splitFirstChar c xs
      (x :: p.1, p.2)

/-- ASCII decimal digit test, as accepted by Python `int()`. -/
def isDigitChar (c : Char) : Bool := 48 ≤ c.toNat && c.toNat ≤ 57

/-- Numeric value of an ASCII digit. -/
def digitVal (c : Char) : Nat := c.toNat - 48

/-- The tail of a Python `int()` literal after its first digit: further
digits, with single underscores allowed only between digits. -/
def parseDigitsCore : List Char → Nat → Option Nat
  | [], acc => some acc
  | c :: cs, acc =>
    if isDigitChar c then parseDigitsCore cs (acc * 10 + digitVal c)
    else if c = '_' then
      match cs with
      | [] => none
      | c2 :: cs2 =>
        if isDigitChar c2 then parseDigitsCore cs2 (acc * 10 + digitVal c2)
        else none
    else none

/-- The digit part of a Python `int()` literal: must begin with a digit. -/
def parseDigits : List Char → Option Nat
  | [] => none
  | c :: cs => if isDigitChar c then parseDigitsCore cs (digitVal c) else none

/-- Python `int(text)` on already-stripped text: optional sign, then digits;
`none` models a raised `ValueError`. -/
def pyIntCore : List Char → Option Int
  | [] => none
  | c :: cs =>
    if c = '-' then (parseDigits cs).map (fun n => -(n : Int))
    else if c = '+' then (parseDigits cs).map (fun n => (n : Int))
    else (parseDigits (c :: cs)).map (fun n => (n : Int))

/-- Python `int(s)`: leading/trailing whitespace is ignored. -/
def pyInt (s : String) : Option Int := pyIntCore (stripList s.toList)

/-- The ASCII digit character for `n < 10`. -/
def digitChar (n : Nat) : Char :=
  match n with
  | 0 => '0'
  | 1 => '1'
  | 2 => '2'
  | 3 => '3'
  | 4 => '4'
  | 5 => '5'
  | 6 => '6'
  | 7 => '7'
  | 8 => '8'
  | _ => '9'

/-- Little-endian decimal digits, with enough fuel (structural so that the
kernel can evaluate it). -/
def natDigitsRevAux : Nat → Nat → List Char
  | _, 0 => []
  | 0, _ + 1 => []
  | fuel + 1, n + 1 => digitChar ((n + 1) % 10) :: natDigitsRevAux fuel ((n + 1) / 10)

/-- Little-endian decimal digits of a natural number (empty for 0). -/
def natDigitsRev (n : Nat) : List Char := natDigitsRevAux n n

/-- Decimal text of a natural number, as Python prints it. -/
def natRepr (n : Nat) : List Char := if n = 0 then ['0'] else (natDigitsRev n).reverse

/-- Python `str(i)` / f-string formatting of an int. -/
def pyIntStr (i : Int) : String :=
  if i < 0 then ⟨'-' :: natRepr i.natAbs⟩ else ⟨natRepr i.natAbs⟩

/-- Universal-newline translation applied by Python text-mode file reads:
`\r\n` and bare `\r` both become `\n`. -/
def univNewlines : List Char → List Char
  | [] => []
  | [c] => if c = '\r' then ['\n'] else [c]
  | c :: c2 :: cs =>
    if c = '\r' then
      if c2 = '\n' then '\n' :: univNewlines cs
      else '\n' :: univNewlines (c2 :: cs)
    else c :: univNewlines (c2 :: cs)

/-- The lines a Python `for line in f` loop iterates over, with trailing
newlines dropped (the loop body only membership-tests `'='`, which is never
a newline, and strips the line, so keeping the terminators is equivalent). -/
def pyLines (content : String) : List (List Char) :=
  splitChar '\n' (univNewlines content.toList)

/-- The four mutable configuration fields of `BCC950Controller`. -/
structure CameraConfig where
  device : String
  pan_speed : Int
  tilt_speed : Int
  zoom_step : Int
  deriving DecidableEq

def keyDEVICE : List Char := "DEVICE".toList

def keyPAN : List Char := "PAN_SPEED".toList

def keyTILT : List Char := "TILT_SPEED".toList

def keyZOOM : List Char := "ZOOM_STEP".toList

/-- The keys whose values pass through `int(...)` in `load_config`. -/
def intKeys : List (List Char) := [keyPAN, keyTILT, keyZOOM]

/-- One iteration of the `load_config` line loop: skip lines without `=`,
otherwise strip, split at the first `=` and dispatch on the key; `none`
models the `ValueError` raised by `int(value)`. -/
def applyLine (cfg : CameraConfig) (l : List Char) : Option CameraConfig :=
  if '=' ∈ l then
    let kv := splitFirstChar '=' (stripList l)
    if kv.1 = keyDEVICE then some { cfg with device := ⟨kv.2⟩ }
    else if kv.1 = keyPAN then
      match pyInt ⟨kv.2⟩ with
      | some n => some { cfg with pan_speed := n }
      | none => none
    else if kv.1 = keyTILT then
      match pyInt ⟨kv.2⟩ with
      | some n => some { cfg with tilt_speed := n }
      | none => none
    else if kv.1 = keyZOOM then
      match pyInt ⟨kv.2⟩ with
      | some n => some { cfg with zoom_step := n }
      | none => none
    else some cfg
  else some cfg

/-- The `load_config` loop over the lines of the file. The flag records whether a
`ValueError` was raised; on a raise the returned config is the state already
accumulated from the earlier lines (the loop mutates `self` in place). -/
def loadLines : CameraConfig → List (List Char) → CameraConfig × Bool
  | cfg, [] => (cfg, false)
  | cfg, l :: ls =>
    match applyLine cfg l with
    | some cfg2 => loadLines cfg2 ls
    | none => (cfg, true)

/-- `load_config`: `none` stands for an absent config file (the
`self.config_file.exists()` guard), `some content` for its text. -/
def load_config (cfg : CameraConfig) (file : Option String) : CameraConfig × Bool :=
  match file with
  | none => (cfg, false)
  | some content => loadLines cfg (pyLines content)

def defaultDevice : String := "/dev/video0"

/-- `self.device = device or "/dev/video0"`: Python `or` replaces a falsy
(absent or empty) argument with the default. -/
def initDevice (device? : Option String) : String :=
  match device? with
  | some d => if d = "" then defaultDevice else d
  | none => defaultDevice

/-- The field values set by `__init__` before `load_config` runs. -/
def initDefaults (device? : Option String) : CameraConfig :=
  { device := initDevice device?
    pan_speed := 1
    tilt_speed := 1
    zoom_step := 10 }

/-- `BCC950Controller.__init__`: set the defaults, then load the config file. -/
def controllerInit (device? : Option String) (file : Option String) :
    CameraConfig × Bool :=
  load_config (initDefaults device?) file

/-- `save_config`: the exact file text written (four KEY=VALUE lines). -/
def save_config (cfg : CameraConfig) : String :=
  (("DEVICE=" ++ cfg.device) ++ "\n") ++
  ((("PAN_SPEED=" ++ pyIntStr cfg.pan_speed) ++ "\n") ++
  ((("TILT_SPEED=" ++ pyIntStr cfg.tilt_speed) ++ "\n") ++
  (("ZOOM_STEP=" ++ pyIntStr cfg.zoom_step) ++ "\n")))

/-- One subprocess interaction issued by the controller: a `--get-ctrl`
query, a `-c name=value` write, or a `time.sleep` (in milliseconds). -/
inductive CamCmd where
  | getCtrl (device : String) (ctrl : String)
  | setCtrl (device : String) (ctrl : String) (value : Int)
  | sleepMs (ms : Nat)
  deriving DecidableEq

/-- The control writes of a trace, in order, as (control, value) pairs. -/
def writesOf (cmds : List CamCmd) : List (String × Int) :=
  cmds.filterMap fun c =>
    match c with
    | .setCtrl _ ctrl v => some (ctrl, v)
    | _ => none

/-- Substring test (Python `needle in hay` on strings). -/
def containsSub (needle : List Char) : List Char → Bool
  | [] => needle.isEmpty
  | c :: cs => needle.isPrefixOf (c :: cs) || containsSub needle cs

/-- Python `needle in hay` for strings. -/
def containsStr (hay needle : String) : Bool := containsSub needle.toList hay.toList

/-- `int(zoom_output.split('=')[1].strip())` applied to the reply of a
`--get-ctrl` query. `reply = none` models `run_command` having returned
`False` (the `.split` attribute access then raises); a missing second piece
models the `IndexError`; an unparseable piece the `ValueError`. -/
def parseControlReply (reply : Option String) : Option Int :=
  match reply with
  | none => none
  | some s =>
    match (splitChar '=' s.toList).get? 1 with
    | none => none
    | some v => pyInt (pyStrip ⟨v⟩)

/-- `new_zoom = min(current_zoom + self.zoom_step, 500)`. -/
def zoomInValue (current step : Int) : Int := min (current + step) 500

/-- `new_zoom = max(current_zoom - self.zoom_step, 100)`. -/
def zoomOutValue (current step : Int) : Int := max (current - step) 100

/-- `zoom_in`, as the trace of commands issued given the text the
`--get-ctrl=zoom_absolute` query produced; the flag records whether the
parse of the reply raised. -/
def zoom_in (cfg : CameraConfig) (reply : Option String) : List CamCmd × Bool :=
  match parseControlReply reply with
  | none => ([.getCtrl cfg.device ("zoom_absolute")], true)
  | some current =>
    ([.getCtrl cfg.device ("zoom_absolute"),
      .setCtrl cfg.device ("zoom_absolute") (zoomInValue current cfg.zoom_step)], false)

/-- `zoom_out`, analogously. -/
def zoom_out (cfg : CameraConfig) (reply : Option String) : List CamCmd × Bool :=
  match parseControlReply reply with
  | none => ([.getCtrl cfg.device ("zoom_absolute")], true)
  | some current =>
    ([.getCtrl cfg.device ("zoom_absolute"),
      .setCtrl cfg.device ("zoom_absolute") (zoomOutValue current cfg.zoom_step)], false)

/-- `reset_position`: the exact command trace issued. -/
def reset_position (cfg : CameraConfig) : List CamCmd :=
  [.setCtrl cfg.device ("pan_speed") 1, .sleepMs 100,
   .setCtrl cfg.device ("pan_speed") 0, .sleepMs 100,
   .setCtrl cfg.device ("pan_speed") (-1), .sleepMs 100,
   .setCtrl cfg.device ("pan_speed") 0,
   .setCtrl cfg.device ("tilt_speed") 1, .sleepMs 100,
   .setCtrl cfg.device ("tilt_speed") 0, .sleepMs 100,
   .setCtrl cfg.device ("tilt_speed") (-1), .sleepMs 100,
   .setCtrl cfg.device ("tilt_speed") 0,
   .setCtrl cfg.device ("zoom_absolute") 100]

/-- The capability-probing loop of `find_camera`: for each device, query its
control list (`ctrls dev = none` models a failed `run_command`, i.e. `False`);
a device matches when the output is truthy and contains `pan_speed`. On the
first match the device is stored, the config saved, and `True` returned. -/
def probe_devices (cfg : CameraConfig) (ctrls : String → Option String) :
    List String → CameraConfig × Option String × Bool
  | [] => (cfg, none, false)
  | dev :: rest =>
    match ctrls dev with
    | none => probe_devices cfg ctrls rest
    | some out =>
      if out != "" && containsStr out ("pan_speed") then
        ({ cfg with device := dev },
         some (save_config { cfg with device := dev }), true)
      else probe_devices cfg ctrls rest

/-- The lazy group of `re.search(r"BCC950.*?\n(.*?/dev/video\d+)", s, DOTALL)`
scanned from a given position: the shortest prefix ending in `/dev/video`
followed by a maximal nonempty digit run. -/
def devVideoGroup : List Char → Option (List Char)
  | [] => none
  | c :: cs =>
    if ("/dev/video".toList).isPrefixOf (c :: cs) then
      let rest := (c :: cs).drop 10
      let ds := rest.takeWhile isDigitChar
      if ds.isEmpty then (devVideoGroup cs).map (fun g => c :: g)
      else some (("/dev/video".toList) ++ ds)
    else (devVideoGroup cs).map (fun g => c :: g)

/-- After the literal `BCC950`, the lazy `.*?\n` part: try each following
newline in order and take the first whose remainder yields a group. -/
def afterNewlineSearch : List Char → Option (List Char)
  | [] => none
  | c :: cs =>
    if c = '\n' then
      match devVideoGroup cs with
      | some g => some g
      | none => afterNewlineSearch cs
    else afterNewlineSearch cs

/-- `re.search` of the BCC950 pattern: leftmost `BCC950` occurrence from
which the rest of the pattern completes. -/
def bcc950Search : List Char → Option (List Char)
  | [] => none
  | c :: cs =>
    if ("BCC950".toList).isPrefixOf (c :: cs) then
      match afterNewlineSearch ((c :: cs).drop 6) with
      | some g => some g
      | none => bcc950Search cs
    else bcc950Search cs

/-- `find_camera`, given the `--list-devices` text (`none` models a failed
`run_command`, on which the `in` test raises `TypeError`, modelled as an
overall `none`), the enumerated `/dev/video*` paths and, per device, the
`--list-ctrls` output. Returns the updated config, the config file text
written (if any), and the boolean result. -/
def find_camera (cfg : CameraConfig) (devicesOutput : Option String)
    (videoDevices : List String) (ctrls : String → Option String) :
    Option (CameraConfig × Option String × Bool) :=
  match devicesOutput with
  | none => none
  | some out =>
    if containsStr out ("BCC950") then
      match bcc950Search out.toList with
      | some g =>
        some ({ cfg with device := ⟨stripList g⟩ },
              some (save_config { cfg with device := ⟨stripList g⟩ }), true)
      | none => some (probe_devices cfg ctrls videoDevices)
    else some (probe_devices cfg ctrls videoDevices)

/-- The key/value view of a config line, exactly as `load_config` computes
it: defined only for lines containing `=`; strip, then split at the first
`=`. -/
def lineKV (l : List Char) : Option (List Char × List Char) :=
  if '=' ∈ l then some (splitFirstChar '=' (stripList l)) else none

/-- A line that makes `load_config` raise: its key is one of the three
integer keys and its value fails `int(...)`. -/
def badIntLineB (l : List Char) : Bool :=
  match lineKV l with
  | some (k, v) => decide (k ∈ intKeys) && (pyInt ⟨v⟩).isNone
  | none => false

/-- The value the given line assigns to the given key, if any. -/
def lineVal (key : List Char) (l : List Char) : Option (List Char) :=
  match lineKV l with
  | some (k, v) => if k = key then some v else none
  | none => none

/-- The value of the last line carrying the given key (later lines
overwrite earlier assignments to the same field). -/
def lastValFor (key : List Char) : List (List Char) → Option (List Char)
  | [] => none
  | l :: ls => (lastValFor key ls).or (lineVal key l)

/-- Maps `f` over the last value of the key when the key appears, else the prior field value
otherwise. -/
def fromLast {α : Type} (o : Option (List Char)) (f : List Char → α) (base : α) : α :=
  match o with
  | some v => f v
  | none => base

/-- Spec-modelled result of loading well-formed lines over a starting
config (the `(pyInt _).getD 0` default is never reached when every line
with an integer key parses): each field whose key appears takes the
parsed value of its last occurrence, the rest keep their prior values. -/
def specLoad (cfg : CameraConfig) (ls : List (List Char)) : CameraConfig :=
  { device := fromLast (lastValFor keyDEVICE ls) (fun v => ⟨v⟩) cfg.device
    pan_speed := fromLast (lastValFor keyPAN ls) (fun v => (pyInt ⟨v⟩).getD 0) cfg.pan_speed
    tilt_speed := fromLast (lastValFor keyTILT ls) (fun v => (pyInt ⟨v⟩).getD 0) cfg.tilt_speed
    zoom_step := fromLast (lastValFor keyZOOM ls) (fun v => (pyInt ⟨v⟩).getD 0) cfg.zoom_step }

/-- The successful-step form of `applyLine` (its value whenever it does not
raise). -/
def stepCfg (cfg : CameraConfig) (l : List Char) : CameraConfig :=
  match lineKV l with
  | none => cfg
  | some (k, v) =>
    if k = keyDEVICE then { cfg with device := ⟨v⟩ }
    else if k = keyPAN then { cfg with pan_speed := (pyInt ⟨v⟩).getD cfg.pan_speed }
    else if k = keyTILT then { cfg with tilt_speed := (pyInt ⟨v⟩).getD cfg.tilt_speed }
    else if k = keyZOOM then { cfg with zoom_step := (pyInt ⟨v⟩).getD cfg.zoom_step }
    else cfg

/-- A device matches the capability probe of `find_camera`: its control
listing was obtained, is truthy, and contains `pan_speed`. -/
def matchesB (ctrls : String → Option String) (d : String) : Bool :=
  match ctrls d with
  | some out => out != "" && containsStr out ("pan_speed")
  | none => false

/-- A concrete controller configuration used by the witnesses below. -/
def cfg0 : CameraConfig :=
  { device := defaultDevice, pan_speed := 1, tilt_speed := 1, zoom_step := 10 }

/-- A concrete control-listing oracle for the discovery witness: only
`/dev/video3` exposes a `pan_speed` control. -/
def probeCtrls : String → Option String := fun d =>
  if d = "/dev/video3" then
    some ("pan_speed 0x009a0908 (int)    : min=-1 max=1 step=1 default=0")
  else if d = "/dev/video1" then
    some ("brightness 0x00980900 (int)    : min=0 max=255 step=1")
  else none

/-- A concrete config file whose second line has a malformed integer. -/
def c10content : String := "PAN_SPEED=2\nTILT_SPEED=x\nZOOM_STEP=15"

def c10pre : List (List Char) := [("PAN_SPEED=2" : String).toList]

def c10bad : List Char := ("TILT_SPEED=x" : String).toList

def c10rest : List (List Char) := [("ZOOM_STEP=15" : String).toList]
theorem toList_append (s t : String) : (s ++ t).toList = s.toList ++ t.toList := by
  cases s
  cases t
  rfl

theorem toList_mk (l : List Char) : (⟨l⟩ : String).toList = l := rfl

theorem mk_toList (s : String) : (⟨s.toList⟩ : String) = s := rfl

theorem splitChar_append (c : Char) (a b : List Char) (ha : c ∉ a) :
    splitChar c (a ++ c :: b) = a :: splitChar c b := by
  induction a with
  | nil => simp [splitChar]
  | cons x xs ih =>
    have hx : x ≠ c := fun h => ha (h ▸ List.mem_cons_self x xs)
    have ih2 := ih (fun h => ha (List.mem_cons_of_mem x h))
    simp only [List.cons_append, splitChar, if_neg hx, List.append_eq, ih2]

theorem splitFirstChar_append (c : Char) (a b : List Char) (ha : c ∉ a) :
    splitFirstChar c (a ++ c :: b) = (a, b) := by
  induction a with
  | nil => simp [splitFirstChar]
  | cons x xs ih =>
    have hx : x ≠ c := fun h => ha (h ▸ List.mem_cons_self x xs)
    have ih2 := ih (fun h => ha (List.mem_cons_of_mem x h))
    simp only [List.cons_append, splitFirstChar, if_neg hx, List.append_eq, ih2]

theorem dropWhile_eq_self_of_head (p : Char → Bool) (l : List Char)
    (h : ∀ c, l.head? = some c → p c = false) : l.dropWhile p = l := by
  cases l with
  | nil => rfl
  | cons c cs => simp [List.dropWhile, h c rfl]

theorem stripList_eq_self_of_ends (l : List Char)
    (h1 : ∀ c, l.head? = some c → isPySpace c = false)
    (h2 : ∀ c, l.getLast? = some c → isPySpace c = false) :
    stripList l = l := by
  unfold stripList
  rw [dropWhile_eq_self_of_head _ l h1]
  rw [dropWhile_eq_self_of_head _ l.reverse (by
    intro c hc
    rw [List.head?_reverse] at hc
    exact h2 c hc)]
  exact List.reverse_reverse l

theorem stripList_eq_self_of_all (l : List Char)
    (h : ∀ c ∈ l, isPySpace c = false) : stripList l = l := by
  refine stripList_eq_self_of_ends l ?_ ?_
  · intro c hc
    exact h c (by cases l with
      | nil => simp at hc
      | cons x xs => simp at hc; simp [hc])
  · intro c hc
    exact h c (List.mem_of_mem_getLast? hc)

theorem univNewlines_eq_self : ∀ l : List Char, (∀ c ∈ l, c ≠ '\r') →
    univNewlines l = l
  | [] => fun _ => rfl
  | [c] => fun h => by simp [univNewlines, h c (by simp)]
  | c :: c2 :: cs => fun h => by
    have hc := h c (by simp)
    have ih := univNewlines_eq_self (c2 :: cs) (fun x hx => h x (by simp at hx ⊢; tauto))
    simp [univNewlines, hc, ih]

theorem digitChar_isDigitChar (m : Nat) : isDigitChar (digitChar m) = true := by
  unfold digitChar
  split <;> decide

theorem digitVal_digitChar (m : Nat) (h : m < 10) : digitVal (digitChar m) = m := by
  interval_cases m <;> decide

theorem natDigitsRevAux_fuel (n : Nat) : ∀ fuel fuel2 : Nat, n ≤ fuel → n ≤ fuel2 →
    natDigitsRevAux fuel n = natDigitsRevAux fuel2 n := by
  induction n using Nat.strong_induction_on with
  | _ n ih =>
    intro fuel fuel2 h1 h2
    cases n with
    | zero => cases fuel <;> cases fuel2 <;> rfl
    | succ m =>
      cases fuel with
      | zero => omega
      | succ f =>
        cases fuel2 with
        | zero => omega
        | succ f2 =>
          unfold natDigitsRevAux
          congr 1
          have hlt : (m + 1) / 10 < m + 1 := Nat.div_lt_self (Nat.succ_pos m) (by decide)
          exact ih ((m + 1) / 10) hlt f f2 (by omega) (by omega)

theorem natDigitsRev_zero : natDigitsRev 0 = [] := rfl

theorem natDigitsRev_succ (n : Nat) (h : n ≠ 0) :
    natDigitsRev n = digitChar (n % 10) :: natDigitsRev (n / 10) := by
  cases n with
  | zero => exact absurd rfl h
  | succ m =>
    show natDigitsRevAux (m + 1) (m + 1) = _
    unfold natDigitsRevAux
    congr 1
    have hlt : (m + 1) / 10 < m + 1 := Nat.div_lt_self (Nat.succ_pos m) (by decide)
    exact natDigitsRevAux_fuel ((m + 1) / 10) m ((m + 1) / 10) (by omega) (by omega)

theorem natDigitsRev_digits (n : Nat) : ∀ c ∈ natDigitsRev n, isDigitChar c = true := by
  induction n using Nat.strong_induction_on with
  | _ n ih =>
    by_cases h : n = 0
    · subst h
      intro c hc
      rw [natDigitsRev_zero] at hc
      exact absurd hc (List.not_mem_nil c)
    · intro c hc
      rw [natDigitsRev_succ n h] at hc
      rcases List.mem_cons.mp hc with h1 | h2
      · subst h1; exact digitChar_isDigitChar _
      · exact ih (n / 10) (Nat.div_lt_self (Nat.pos_of_ne_zero h) (by decide)) c h2

theorem natRepr_digits (n : Nat) : ∀ c ∈ natRepr n, isDigitChar c = true := by
  intro c hc
  unfold natRepr at hc
  by_cases h : n = 0
  · simp [h] at hc
    subst hc; decide
  · simp only [h, if_false, List.mem_reverse] at hc
    exact natDigitsRev_digits n c hc

theorem parseDigitsCore_all_digits (cs : List Char) :
    ∀ acc : Nat, (∀ c ∈ cs, isDigitChar c = true) →
    parseDigitsCore cs acc = some (cs.foldl (fun a c => a * 10 + digitVal c) acc) := by
  induction cs with
  | nil => intro acc _; simp [parseDigitsCore]
  | cons c cs ih =>
    intro acc h
    have hc : isDigitChar c = true := h c (List.mem_cons_self c cs)
    rw [parseDigitsCore.eq_def]
    simp only [hc, if_true, List.foldl_cons]
    exact ih _ (fun x hx => h x (List.mem_cons_of_mem c hx))

theorem foldr_natDigitsRev (n : Nat) :
    (natDigitsRev n).foldr (fun c a => a * 10 + digitVal c) 0 = n := by
  induction n using Nat.strong_induction_on with
  | _ n ih =>
    by_cases h : n = 0
    · subst h
      rw [natDigitsRev_zero]
      rfl
    · rw [natDigitsRev_succ n h]
      rw [List.foldr_cons]
      rw [ih (n / 10) (Nat.div_lt_self (Nat.pos_of_ne_zero h) (by decide))]
      rw [digitVal_digitChar (n % 10) (Nat.mod_lt n (by decide))]
      omega

theorem parseDigits_natRepr (n : Nat) : parseDigits (natRepr n) = some n := by
  by_cases h : n = 0
  · subst h; decide
  · have hne : natDigitsRev n ≠ [] := by
      rw [natDigitsRev_succ n h]
      simp
    unfold natRepr
    rw [if_neg h]
    obtain ⟨c, cs, hcc⟩ : ∃ c cs, (natDigitsRev n).reverse = c :: cs := by
      cases hr : (natDigitsRev n).reverse with
      | nil => exact absurd (List.reverse_eq_nil_iff.mp hr) hne
      | cons c cs => exact ⟨c, cs, rfl⟩
    have hdig : ∀ x ∈ c :: cs, isDigitChar x = true := by
      rw [← hcc]
      intro x hx
      exact natDigitsRev_digits n x (List.mem_reverse.mp hx)
    rw [hcc, parseDigits]
    simp only [hdig c (List.mem_cons_self c cs), if_true]
    rw [parseDigitsCore_all_digits cs (digitVal c)
      (fun x hx => hdig x (List.mem_cons_of_mem c hx))]
    congr 1
    calc cs.foldl (fun a x => a * 10 + digitVal x) (digitVal c)
        = (c :: cs).foldl (fun a x => a * 10 + digitVal x) 0 := by
          rw [List.foldl_cons,
            (show (0 : Nat) * 10 + digitVal c = digitVal c from by omega)]
      _ = ((natDigitsRev n).reverse).foldl (fun a x => a * 10 + digitVal x) 0 := by rw [hcc]
      _ = (natDigitsRev n).foldr (fun x a => a * 10 + digitVal x) 0 := by
          rw [List.foldl_reverse]
      _ = n := foldr_natDigitsRev n

theorem isPySpace_of_digit (c : Char) (h : isDigitChar c = true) : isPySpace c = false := by
  unfold isDigitChar at h
  unfold isPySpace
  simp only [Bool.and_eq_true, decide_eq_true_eq] at h
  simp only [Bool.or_eq_false_iff, decide_eq_false_iff_not]
  omega

theorem pyIntStr_toList_neg (i : Int) (h : i < 0) :
    (pyIntStr i).toList = '-' :: natRepr i.natAbs := by
  unfold pyIntStr
  rw [if_pos h]
  rfl

theorem pyIntStr_toList_nonneg (i : Int) (h : ¬ i < 0) :
    (pyIntStr i).toList = natRepr i.natAbs := by
  unfold pyIntStr
  rw [if_neg h]
  rfl

theorem pyIntStr_no_space (i : Int) : ∀ c ∈ (pyIntStr i).toList, isPySpace c = false := by
  intro c hc
  by_cases h : i < 0
  · rw [pyIntStr_toList_neg i h] at hc
    rcases List.mem_cons.mp hc with h1 | h2
    · subst h1; decide
    · exact isPySpace_of_digit c (natRepr_digits _ c h2)
  · rw [pyIntStr_toList_nonneg i h] at hc
    exact isPySpace_of_digit c (natRepr_digits _ c hc)

theorem pyInt_pyIntStr (i : Int) : pyInt (pyIntStr i) = some i := by
  unfold pyInt
  rw [stripList_eq_self_of_all _ (pyIntStr_no_space i)]
  by_cases h : i < 0
  · rw [pyIntStr_toList_neg i h]
    rw [pyIntCore]
    simp only [if_pos rfl]
    rw [parseDigits_natRepr]
    show some (-((i.natAbs : Nat) : Int)) = some i
    congr 1
    omega
  · rw [pyIntStr_toList_nonneg i h]
    obtain ⟨c, cs, hcc⟩ : ∃ c cs, natRepr i.natAbs = c :: cs := by
      unfold natRepr
      by_cases h2 : i.natAbs = 0
      · rw [if_pos h2]; exact ⟨'0', [], rfl⟩
      · rw [if_neg h2]
        cases hr : (natDigitsRev i.natAbs).reverse with
        | nil =>
          exfalso
          apply h2
          have h3 := foldr_natDigitsRev i.natAbs
          rw [List.reverse_eq_nil_iff.mp hr] at h3
          simpa using h3.symm
        | cons c cs => exact ⟨c, cs, rfl⟩
    have hcdig : isDigitChar c = true := by
      have := natRepr_digits i.natAbs c (by rw [hcc]; exact List.mem_cons_self c cs)
      exact this
    have hc1 : c ≠ '-' := by
      intro he
      rw [he] at hcdig
      exact absurd hcdig (by decide)
    have hc2 : c ≠ '+' := by
      intro he
      rw [he] at hcdig
      exact absurd hcdig (by decide)
    rw [hcc, pyIntCore, if_neg hc1, if_neg hc2, ← hcc, parseDigits_natRepr]
    show some (((i.natAbs : Nat) : Int)) = some i
    congr 1
    omega

theorem kPD : keyPAN ≠ keyDEVICE := by decide

theorem kTD : keyTILT ≠ keyDEVICE := by decide

theorem kTP : keyTILT ≠ keyPAN := by decide

theorem kZD : keyZOOM ≠ keyDEVICE := by decide

theorem kZP : keyZOOM ≠ keyPAN := by decide

theorem kZT : keyZOOM ≠ keyTILT := by decide

theorem applyLine_eq_stepCfg (cfg : CameraConfig) (l : List Char)
    (h : badIntLineB l = false) : applyLine cfg l = some (stepCfg cfg l) := by
  unfold badIntLineB lineKV at h
  unfold applyLine stepCfg lineKV
  by_cases hc : '=' ∈ l
  · simp only [if_pos hc] at h ⊢
    set kv := splitFirstChar '=' (stripList l) with hkv
    obtain ⟨k, v⟩ := kv
    by_cases h1 : k = keyDEVICE
    · simp [h1]
    · by_cases h2 : k = keyPAN
      · cases hp : pyInt ⟨v⟩ with
        | none =>
          exfalso
          rw [hp, h2] at h
          simp [intKeys] at h
        | some n => simp [h1, h2, hp, kPD]
      · by_cases h3 : k = keyTILT
        · cases hp : pyInt ⟨v⟩ with
          | none =>
            exfalso
            rw [hp, h3] at h
            simp [intKeys] at h
          | some n => simp [h1, h2, h3, hp, kTD, kTP]
        · by_cases h4 : k = keyZOOM
          · cases hp : pyInt ⟨v⟩ with
            | none =>
              exfalso
              rw [hp, h4] at h
              simp [intKeys] at h
            | some n => simp [h1, h2, h3, h4, hp, kZD, kZP, kZT]
          · simp [h1, h2, h3, h4]
  · simp only [if_neg hc]

theorem lastValFor_nil (key : List Char) : lastValFor key [] = none := rfl

theorem lastValFor_cons (key : List Char) (l : List Char) (ls : List (List Char)) :
    lastValFor key (l :: ls) = (lastValFor key ls).or (lineVal key l) := rfl

theorem lineVal_none (key : List Char) (l : List Char) (h : lineKV l = none) :
    lineVal key l = none := by
  unfold lineVal
  rw [h]

theorem lineVal_kv (key k v : List Char) (l : List Char) (h : lineKV l = some (k, v)) :
    lineVal key l = if k = key then some v else none := by
  unfold lineVal
  rw [h]

theorem lastValFor_cons_none (key : List Char) (l : List Char) (ls : List (List Char))
    (h : lineKV l = none) : lastValFor key (l :: ls) = lastValFor key ls := by
  rw [lastValFor_cons, lineVal_none key l h]
  cases lastValFor key ls <;> rfl

theorem stepCfg_none (cfg : CameraConfig) (l : List Char) (h : lineKV l = none) :
    stepCfg cfg l = cfg := by
  unfold stepCfg
  rw [h]

theorem stepCfg_kv (cfg : CameraConfig) (l k v : List Char) (h : lineKV l = some (k, v)) :
    stepCfg cfg l =
      (if k = keyDEVICE then { cfg with device := ⟨v⟩ }
       else if k = keyPAN then { cfg with pan_speed := (pyInt ⟨v⟩).getD cfg.pan_speed }
       else if k = keyTILT then { cfg with tilt_speed := (pyInt ⟨v⟩).getD cfg.tilt_speed }
       else if k = keyZOOM then { cfg with zoom_step := (pyInt ⟨v⟩).getD cfg.zoom_step }
       else cfg) := by
  unfold stepCfg
  rw [h]

theorem fromLast_or (o s : Option (List Char)) {α : Type} (f : List Char → α)
    (base base2 : α)
    (h1 : ∀ v, s = some v → base2 = f v) (h2 : s = none → base2 = base) :
    fromLast (o.or s) f base = fromLast o f base2 := by
  cases o with
  | some w => rfl
  | none =>
    cases hs : s with
    | some v => simp only [fromLast, Option.or, h1 v hs]
    | none => simp only [fromLast, Option.or, h2 hs]

theorem specLoad_nil (cfg : CameraConfig) : specLoad cfg [] = cfg := rfl

theorem specLoad_cons (cfg : CameraConfig) (l : List Char) (ls : List (List Char))
    (hgood : badIntLineB l = false) :
    specLoad cfg (l :: ls) = specLoad (stepCfg cfg l) ls := by
  cases hkv : lineKV l with
  | none =>
    rw [stepCfg_none cfg l hkv]
    unfold specLoad
    simp only [lastValFor_cons_none _ _ _ hkv]
  | some kv =>
    obtain ⟨k, v⟩ := kv
    have hbad : (decide (k ∈ intKeys) && (pyInt ⟨v⟩).isNone) = false := by
      have htmp := hgood
      unfold badIntLineB at htmp
      rw [hkv] at htmp
      exact htmp
    unfold specLoad
    simp only [lastValFor_cons, lineVal_kv _ _ _ _ hkv, stepCfg_kv cfg l k v hkv]
    congr 1
    · refine fromLast_or _ _ _ _ _ ?_ ?_
      · intro w hw
        by_cases hk : k = keyDEVICE
        · rw [if_pos hk] at hw ⊢
          cases hw
          rfl
        · rw [if_neg hk] at hw
          cases hw
      · intro hn
        by_cases hk : k = keyDEVICE
        · rw [if_pos hk] at hn
          cases hn
        · rw [if_neg hk]
          split_ifs <;> rfl
    · refine fromLast_or _ _ _ _ _ ?_ ?_
      · intro w hw
        by_cases hk : k = keyPAN
        · rw [if_pos hk] at hw
          cases hw
          rw [if_neg (hk ▸ kPD), if_pos hk]
          have hsome : (pyInt (⟨v⟩ : String)).isNone = false := by
            rw [hk] at hbad
            simpa [intKeys] using hbad
          cases hp : pyInt (⟨v⟩ : String) with
          | none => rw [hp] at hsome; simp at hsome
          | some n => simp [hp]
        · rw [if_neg hk] at hw
          cases hw
      · intro hn
        by_cases hk : k = keyPAN
        · rw [if_pos hk] at hn
          cases hn
        · split_ifs <;> simp_all
    · refine fromLast_or _ _ _ _ _ ?_ ?_
      · intro w hw
        by_cases hk : k = keyTILT
        · rw [if_pos hk] at hw
          cases hw
          rw [if_neg (hk ▸ kTD), if_neg (hk ▸ kTP), if_pos hk]
          have hsome : (pyInt (⟨v⟩ : String)).isNone = false := by
            rw [hk] at hbad
            simpa [intKeys] using hbad
          cases hp : pyInt (⟨v⟩ : String) with
          | none => rw [hp] at hsome; simp at hsome
          | some n => simp [hp]
        · rw [if_neg hk] at hw
          cases hw
      · intro hn
        by_cases hk : k = keyTILT
        · rw [if_pos hk] at hn
          cases hn
        · split_ifs <;> simp_all
    · refine fromLast_or _ _ _ _ _ ?_ ?_
      · intro w hw
        by_cases hk : k = keyZOOM
        · rw [if_pos hk] at hw
          cases hw
          rw [if_neg (hk ▸ kZD), if_neg (hk ▸ kZP), if_neg (hk ▸ kZT), if_pos hk]
          have hsome : (pyInt (⟨v⟩ : String)).isNone = false := by
            rw [hk] at hbad
            simpa [intKeys] using hbad
          cases hp : pyInt (⟨v⟩ : String) with
          | none => rw [hp] at hsome; simp at hsome
          | some n => simp [hp]
        · rw [if_neg hk] at hw
          cases hw
      · intro hn
        by_cases hk : k = keyZOOM
        · rw [if_pos hk] at hn
          cases hn
        · split_ifs <;> simp_all

theorem applyLine_bad (cfg : CameraConfig) (l : List Char)
    (h : badIntLineB l = true) : applyLine cfg l = none := by
  unfold badIntLineB lineKV at h
  unfold applyLine
  by_cases hc : '=' ∈ l
  · simp only [if_pos hc] at h ⊢
    set kv := splitFirstChar '=' (stripList l) with hkv
    obtain ⟨k, v⟩ := kv
    simp only [Bool.and_eq_true, decide_eq_true_eq, Option.isNone_iff_eq_none] at h
    obtain ⟨hk, hv⟩ := h
    have h1 : k ≠ keyDEVICE := by
      intro he
      rw [he] at hk
      exact absurd hk (by decide)
    rw [if_neg h1]
    have hk3 : k = keyPAN ∨ k = keyTILT ∨ k = keyZOOM := by
      simpa [intKeys] using hk
    rcases hk3 with h2 | h2 | h2
    · subst h2
      simp [hv, kPD]
    · subst h2
      simp [hv, kTD, kTP]
    · subst h2
      simp [hv, kZD, kZP, kZT]
  · rw [if_neg hc] at h
    simp at h

theorem loadLines_good (ls : List (List Char)) : ∀ cfg : CameraConfig,
    (∀ l ∈ ls, badIntLineB l = false) →
    loadLines cfg ls = (specLoad cfg ls, false) := by
  induction ls with
  | nil =>
    intro cfg _
    rw [specLoad_nil]
    rfl
  | cons l ls ih =>
    intro cfg h
    have hl := h l (List.mem_cons_self l ls)
    have hls : ∀ x ∈ ls, badIntLineB x = false :=
      fun x hx => h x (List.mem_cons_of_mem l hx)
    rw [specLoad_cons cfg l ls hl]
    unfold loadLines
    rw [applyLine_eq_stepCfg cfg l hl]
    exact ih (stepCfg cfg l) hls

theorem loadLines_raises (ls : List (List Char)) : ∀ cfg : CameraConfig,
    (∃ l ∈ ls, badIntLineB l = true) → (loadLines cfg ls).2 = true := by
  induction ls with
  | nil =>
    intro cfg h
    simp at h
  | cons l ls ih =>
    intro cfg h
    cases hap : applyLine cfg l with
    | none =>
      unfold loadLines
      rw [hap]
    | some cfg2 =>
      unfold loadLines
      rw [hap]
      obtain ⟨x, hx, hbad⟩ := h
      rcases List.mem_cons.mp hx with h1 | h2
      · subst h1
        rw [applyLine_bad cfg x hbad] at hap
        cases hap
      · exact ih cfg2 ⟨x, h2, hbad⟩

theorem loadLines_prefix_bad (pre : List (List Char)) :
    ∀ (cfg : CameraConfig) (bad : List Char) (rest : List (List Char)),
    (∀ l ∈ pre, badIntLineB l = false) → badIntLineB bad = true →
    loadLines cfg (pre ++ bad :: rest) = (specLoad cfg pre, true) := by
  induction pre with
  | nil =>
    intro cfg bad rest _ hbad
    rw [specLoad_nil, List.nil_append]
    unfold loadLines
    rw [applyLine_bad cfg bad hbad]
  | cons l pre ih =>
    intro cfg bad rest h hbad
    have hl := h l (List.mem_cons_self l pre)
    rw [specLoad_cons cfg l pre hl, List.cons_append]
    unfold loadLines
    rw [applyLine_eq_stepCfg cfg l hl]
    exact ih (stepCfg cfg l) bad rest (fun x hx => h x (List.mem_cons_of_mem l hx)) hbad

theorem toList_data (s : String) : s.toList = s.data := rfl

theorem mk_data (s : String) : (⟨s.data⟩ : String) = s := rfl

theorem keyDEVICE_eq : keyDEVICE = ['D', 'E', 'V', 'I', 'C', 'E'] := rfl

theorem keyPAN_eq : keyPAN = ['P', 'A', 'N', '_', 'S', 'P', 'E', 'E', 'D'] := rfl

theorem keyTILT_eq : keyTILT = ['T', 'I', 'L', 'T', '_', 'S', 'P', 'E', 'E', 'D'] := rfl

theorem keyZOOM_eq : keyZOOM = ['Z', 'O', 'O', 'M', '_', 'S', 'T', 'E', 'P'] := rfl

theorem keyDEVICE_head : keyDEVICE.head? = some 'D' := rfl

theorem keyPAN_head : keyPAN.head? = some 'P' := rfl

theorem keyTILT_head : keyTILT.head? = some 'T' := rfl

theorem keyZOOM_head : keyZOOM.head? = some 'Z' := rfl

theorem ne_cr_of_nospace (c : Char) (h : isPySpace c = false) : c ≠ '\r' := by
  intro he
  rw [he] at h
  exact absurd h (by decide)

theorem ne_nl_of_nospace (c : Char) (h : isPySpace c = false) : c ≠ '\n' := by
  intro he
  rw [he] at h
  exact absurd h (by decide)

theorem save_config_toList (cfg : CameraConfig) :
    (save_config cfg).toList =
      (keyDEVICE ++ '=' :: cfg.device.toList) ++ '\n' ::
      ((keyPAN ++ '=' :: (pyIntStr cfg.pan_speed).toList) ++ '\n' ::
      ((keyTILT ++ '=' :: (pyIntStr cfg.tilt_speed).toList) ++ '\n' ::
      ((keyZOOM ++ '=' :: (pyIntStr cfg.zoom_step).toList) ++ '\n' :: []))) := by
  unfold save_config
  simp only [toList_append]
  rw [(rfl : ("DEVICE=" : String).toList = keyDEVICE ++ ['=']),
    (rfl : ("PAN_SPEED=" : String).toList = keyPAN ++ ['=']),
    (rfl : ("TILT_SPEED=" : String).toList = keyTILT ++ ['=']),
    (rfl : ("ZOOM_STEP=" : String).toList = keyZOOM ++ ['=']),
    (rfl : ("\n" : String).toList = ['\n'])]
  simp [keyDEVICE_eq, keyPAN_eq, keyTILT_eq, keyZOOM_eq, toList_data, List.append_assoc]

theorem strip_key_line (klist d : List Char) (hk : klist ≠ [])
    (hhead : ∀ x, klist.head? = some x → isPySpace x = false)
    (hlast : ∀ c, d.getLast? = some c → isPySpace c = false) :
    stripList (klist ++ '=' :: d) = klist ++ '=' :: d := by
  refine stripList_eq_self_of_ends _ ?_ ?_
  · intro x hx
    cases klist with
    | nil => exact absurd rfl hk
    | cons a as =>
      simp only [List.cons_append, List.head?_cons] at hx
      cases hx
      exact hhead _ rfl
  · intro c hc
    cases hd : d with
    | nil =>
      subst hd
      rw [List.getLast?_append_of_ne_nil klist (show ['='] ≠ [] by simp)] at hc
      simp at hc
      subst hc
      decide
    | cons b bs =>
      subst hd
      rw [List.getLast?_append_of_ne_nil klist (show ('=' :: b :: bs) ≠ [] by simp)] at hc
      rw [List.getLast?_cons_cons] at hc
      exact hlast c hc

theorem applyLine_nil_line (b : CameraConfig) : applyLine b [] = some b := rfl

theorem applyLine_device_line (b : CameraConfig) (dev : String)
    (hlast : ∀ c, dev.toList.getLast? = some c → isPySpace c = false) :
    applyLine b (keyDEVICE ++ '=' :: dev.toList) = some { b with device := dev } := by
  unfold applyLine
  rw [if_pos (by simp : '=' ∈ keyDEVICE ++ '=' :: dev.toList)]
  rw [strip_key_line keyDEVICE dev.toList (by decide)
    (fun x hx => by rw [keyDEVICE_head] at hx; cases hx; decide) hlast]
  rw [splitFirstChar_append '=' keyDEVICE dev.toList (by decide)]
  simp [toList_data, mk_data]

theorem applyLine_pan_line (b : CameraConfig) (i : Int) :
    applyLine b (keyPAN ++ '=' :: (pyIntStr i).toList) = some { b with pan_speed := i } := by
  unfold applyLine
  rw [if_pos (by simp : '=' ∈ keyPAN ++ '=' :: (pyIntStr i).toList)]
  rw [strip_key_line keyPAN _ (by decide)
    (fun x hx => by rw [keyPAN_head] at hx; cases hx; decide)
    (fun c hc => pyIntStr_no_space i c (List.mem_of_mem_getLast? hc))]
  rw [splitFirstChar_append '=' keyPAN _ (by decide)]
  simp [kPD, toList_data, mk_data, pyInt_pyIntStr]

theorem applyLine_tilt_line (b : CameraConfig) (i : Int) :
    applyLine b (keyTILT ++ '=' :: (pyIntStr i).toList) = some { b with tilt_speed := i } := by
  unfold applyLine
  rw [if_pos (by simp : '=' ∈ keyTILT ++ '=' :: (pyIntStr i).toList)]
  rw [strip_key_line keyTILT _ (by decide)
    (fun x hx => by rw [keyTILT_head] at hx; cases hx; decide)
    (fun c hc => pyIntStr_no_space i c (List.mem_of_mem_getLast? hc))]
  rw [splitFirstChar_append '=' keyTILT _ (by decide)]
  simp [kTD, kTP, toList_data, mk_data, pyInt_pyIntStr]

theorem applyLine_zoom_line (b : CameraConfig) (i : Int) :
    applyLine b (keyZOOM ++ '=' :: (pyIntStr i).toList) = some { b with zoom_step := i } := by
  unfold applyLine
  rw [if_pos (by simp : '=' ∈ keyZOOM ++ '=' :: (pyIntStr i).toList)]
  rw [strip_key_line keyZOOM _ (by decide)
    (fun x hx => by rw [keyZOOM_head] at hx; cases hx; decide)
    (fun c hc => pyIntStr_no_space i c (List.mem_of_mem_getLast? hc))]
  rw [splitFirstChar_append '=' keyZOOM _ (by decide)]
  simp [kZD, kZP, kZT, toList_data, mk_data, pyInt_pyIntStr]

theorem no_cr_int_line (key : List Char) (i : Int)
    (hkey : ∀ c ∈ key, c ≠ '\r') :
    ∀ c ∈ key ++ '=' :: (pyIntStr i).toList, c ≠ '\r' := by
  intro c hc
  rcases List.mem_append.mp hc with h | h
  · exact hkey c h
  · rcases List.mem_cons.mp h with h | h
    · subst h; decide
    · exact ne_cr_of_nospace c (pyIntStr_no_space i c h)

theorem no_nl_int_line (key : List Char) (i : Int)
    (hkey : '\n' ∉ key) : '\n' ∉ key ++ '=' :: (pyIntStr i).toList := by
  intro hc
  rcases List.mem_append.mp hc with h | h
  · exact hkey h
  · rcases List.mem_cons.mp h with h | h
    · exact absurd h (by decide)
    · exact ne_nl_of_nospace _ (pyIntStr_no_space i _ h) rfl

theorem roundtrip_lines (cfg : CameraConfig)
    (hnl : '\n' ∉ cfg.device.toList) (hcr : '\r' ∉ cfg.device.toList) :
    pyLines (save_config cfg) =
      [keyDEVICE ++ '=' :: cfg.device.toList,
       keyPAN ++ '=' :: (pyIntStr cfg.pan_speed).toList,
       keyTILT ++ '=' :: (pyIntStr cfg.tilt_speed).toList,
       keyZOOM ++ '=' :: (pyIntStr cfg.zoom_step).toList, []] := by
  unfold pyLines
  rw [save_config_toList]
  have hA : ∀ c ∈ keyDEVICE ++ '=' :: cfg.device.toList, c ≠ '\r' := by
    intro c hc
    rcases List.mem_append.mp hc with h | h
    · rw [keyDEVICE_eq] at h
      fin_cases h <;> decide
    · rcases List.mem_cons.mp h with h | h
      · subst h; decide
      · exact fun he => hcr (he ▸ h)
  have hB := no_cr_int_line keyPAN cfg.pan_speed
    (by intro c hc; rw [keyPAN_eq] at hc; fin_cases hc <;> decide)
  have hC := no_cr_int_line keyTILT cfg.tilt_speed
    (by intro c hc; rw [keyTILT_eq] at hc; fin_cases hc <;> decide)
  have hD := no_cr_int_line keyZOOM cfg.zoom_step
    (by intro c hc; rw [keyZOOM_eq] at hc; fin_cases hc <;> decide)
  rw [univNewlines_eq_self _ ?hcr]
  case hcr =>
    intro c hc
    rcases List.mem_append.mp hc with h | h
    · exact hA c h
    · rcases List.mem_cons.mp h with h | h
      · subst h; decide
      · rcases List.mem_append.mp h with h | h
        · exact hB c h
        · rcases List.mem_cons.mp h with h | h
          · subst h; decide
          · rcases List.mem_append.mp h with h | h
            · exact hC c h
            · rcases List.mem_cons.mp h with h | h
              · subst h; decide
              · rcases List.mem_append.mp h with h | h
                · exact hD c h
                · rcases List.mem_cons.mp h with h | h
                  · subst h; decide
                  · exact absurd h (List.not_mem_nil c)
  have hA2 : '\n' ∉ keyDEVICE ++ '=' :: cfg.device.toList := by
    intro hc
    rcases List.mem_append.mp hc with h | h
    · exact absurd h (by decide)
    · rcases List.mem_cons.mp h with h | h
      · exact absurd h (by decide)
      · exact hnl h
  rw [splitChar_append '\n' _ _ hA2]
  rw [splitChar_append '\n' _ _ (no_nl_int_line keyPAN cfg.pan_speed (by decide))]
  rw [splitChar_append '\n' _ _ (no_nl_int_line keyTILT cfg.tilt_speed (by decide))]
  rw [splitChar_append '\n' _ _ (no_nl_int_line keyZOOM cfg.zoom_step (by decide))]
  rfl

theorem save_load_roundtrip (base cfg : CameraConfig)
    (hnl : '\n' ∉ cfg.device.toList) (hcr : '\r' ∉ cfg.device.toList)
    (hlast : ∀ c, cfg.device.toList.getLast? = some c → isPySpace c = false) :
    load_config base (some (save_config cfg)) = (cfg, false) := by
  have h0 : load_config base (some (save_config cfg))
      = loadLines base (pyLines (save_config cfg)) := rfl
  rw [h0, roundtrip_lines cfg hnl hcr]
  simp only [loadLines, applyLine_device_line base cfg.device hlast,
    applyLine_pan_line, applyLine_tilt_line, applyLine_zoom_line, applyLine_nil_line]

theorem probe_devices_cons_match (cfg : CameraConfig) (ctrls : String → Option String)
    (dev : String) (rest : List String) (h : matchesB ctrls dev = true) :
    probe_devices cfg ctrls (dev :: rest) =
      ({ cfg with device := dev }, some (save_config { cfg with device := dev }), true) := by
  unfold matchesB at h
  unfold probe_devices
  cases hc : ctrls dev with
  | none =>
    rw [hc] at h
    cases h
  | some out =>
    rw [hc] at h
    simp only at h ⊢
    rw [if_pos h]

theorem probe_devices_cons_nomatch (cfg : CameraConfig) (ctrls : String → Option String)
    (dev : String) (rest : List String) (h : matchesB ctrls dev = false) :
    probe_devices cfg ctrls (dev :: rest) = probe_devices cfg ctrls rest := by
  unfold matchesB at h
  conv_lhs => unfold probe_devices
  cases hc : ctrls dev with
  | none => rfl
  | some out =>
    rw [hc] at h
    simp only at h ⊢
    rw [if_neg (by rw [h]; exact Bool.false_ne_true)]

theorem probe_first_match (cfg : CameraConfig) (ctrls : String → Option String)
    (pre : List String) (d : String) (post : List String)
    (hpre : ∀ x ∈ pre, matchesB ctrls x = false) (hd : matchesB ctrls d = true) :
    probe_devices cfg ctrls (pre ++ d :: post) =
      ({ cfg with device := d }, some (save_config { cfg with device := d }), true) := by
  induction pre with
  | nil =>
    rw [List.nil_append]
    exact probe_devices_cons_match cfg ctrls d post hd
  | cons x xs ih =>
    rw [List.cons_append,
      probe_devices_cons_nomatch cfg ctrls x _ (hpre x (List.mem_cons_self x xs))]
    exact ih (fun y hy => hpre y (List.mem_cons_of_mem x hy))

theorem find_camera_probe (cfg : CameraConfig) (out : String)
    (videoDevices : List String) (ctrls : String → Option String)
    (hmark : containsStr out ("BCC950") = true → bcc950Search out.toList = none) :
    find_camera cfg (some out) videoDevices ctrls =
      some (probe_devices cfg ctrls videoDevices) := by
  unfold find_camera
  simp only
  by_cases hb : containsStr out ("BCC950") = true
  · rw [if_pos hb, hmark hb]
  · rw [if_neg hb]

theorem claim_helper_zoom_writes (cfg : CameraConfig) (reply : Option String) (c : Int)
    (h : parseControlReply reply = some c) :
    writesOf (zoom_in cfg reply).1 =
      [(("zoom_absolute" : String), zoomInValue c cfg.zoom_step)] ∧
    writesOf (zoom_out cfg reply).1 =
      [(("zoom_absolute" : String), zoomOutValue c cfg.zoom_step)] := by
  unfold zoom_in zoom_out
  rw [h]
  exact ⟨rfl, rfl⟩

/-- C1: for every zoom-in call with current zoom value c and zoom step s, the
value written to zoom_absolute equals min(c + s, 500); for every zoom-out
call, the value written equals max(c - s, 100). -/
theorem claim_C1_zoom_values (cfg : CameraConfig) (reply : Option String) (c : Int)
    (h : parseControlReply reply = some c) :
    writesOf (zoom_in cfg reply).1 =
      [(("zoom_absolute" : String), min (c + cfg.zoom_step) 500)] ∧
    writesOf (zoom_out cfg reply).1 =
      [(("zoom_absolute" : String), max (c - cfg.zoom_step) 100)] := by
  unfold zoom_in zoom_out
  rw [h]
  exact ⟨rfl, rfl⟩

theorem claim_C1_zoom_values_witness :
    parseControlReply (some ("zoom_absolute=250")) = some 250 ∧
    (writesOf (zoom_in cfg0 (some ("zoom_absolute=250"))).1 =
      [(("zoom_absolute" : String), min ((250 : Int) + cfg0.zoom_step) 500)] ∧
    writesOf (zoom_out cfg0 (some ("zoom_absolute=250"))).1 =
      [(("zoom_absolute" : String), max ((250 : Int) - cfg0.zoom_step) 100)]) :=
  ⟨by decide, claim_C1_zoom_values cfg0 (some ("zoom_absolute=250")) 250 (by decide)⟩

/-- C2 counterexample: the claim that every zoom-in write lies in [100, 500]
fails: with zoom step 10 and a current reading of 50 the code writes
zoom_absolute = 60, which is below 100 (zoom_in only clamps above). -/
theorem claim_C2_counterexample :
    writesOf (zoom_in cfg0 (some ("zoom_absolute=50"))).1 =
      [(("zoom_absolute" : String), 60)] ∧
    ¬ (100 ≤ (60 : Int) ∧ (60 : Int) ≤ 500) :=
  ⟨by decide, by decide⟩

/-- C2 (amended): zoom-in enforces only the upper bound 500 and zoom-out only
the lower bound 100; when additionally the current reading is at least 100
(resp. at most 500) and the zoom step is nonnegative, the written value lies
in [100, 500]. -/
theorem claim_C2_zoom_bounds (cfg : CameraConfig) (reply : Option String) (c : Int)
    (h : parseControlReply reply = some c) :
    (∀ v, (("zoom_absolute" : String), v) ∈ writesOf (zoom_in cfg reply).1 → v ≤ 500) ∧
    (∀ v, (("zoom_absolute" : String), v) ∈ writesOf (zoom_out cfg reply).1 → 100 ≤ v) ∧
    (100 ≤ c → 0 ≤ cfg.zoom_step →
      ∀ v, (("zoom_absolute" : String), v) ∈ writesOf (zoom_in cfg reply).1 →
        100 ≤ v ∧ v ≤ 500) ∧
    (c ≤ 500 → 0 ≤ cfg.zoom_step →
      ∀ v, (("zoom_absolute" : String), v) ∈ writesOf (zoom_out cfg reply).1 →
        100 ≤ v ∧ v ≤ 500) := by
  have hin := (claim_helper_zoom_writes cfg reply c h).1
  have hout := (claim_helper_zoom_writes cfg reply c h).2
  refine ⟨?_, ?_, ?_, ?_⟩
  · intro v hv
    rw [hin] at hv
    simp only [List.mem_singleton, Prod.mk.injEq] at hv
    rw [hv.2]
    unfold zoomInValue
    exact min_le_right _ _
  · intro v hv
    rw [hout] at hv
    simp only [List.mem_singleton, Prod.mk.injEq] at hv
    rw [hv.2]
    unfold zoomOutValue
    exact le_max_right _ _
  · intro hc hs v hv
    rw [hin] at hv
    simp only [List.mem_singleton, Prod.mk.injEq] at hv
    rw [hv.2]
    unfold zoomInValue
    constructor
    · exact le_min (by omega) (by omega)
    · exact min_le_right _ _
  · intro hc hs v hv
    rw [hout] at hv
    simp only [List.mem_singleton, Prod.mk.injEq] at hv
    rw [hv.2]
    unfold zoomOutValue
    constructor
    · exact le_max_right _ _
    · exact max_le (by omega) (by omega)

theorem claim_C2_zoom_bounds_witness :
    parseControlReply (some ("zoom_absolute=495")) = some 495 ∧
    ((∀ v, (("zoom_absolute" : String), v) ∈
        writesOf (zoom_in cfg0 (some ("zoom_absolute=495"))).1 → v ≤ 500) ∧
    (∀ v, (("zoom_absolute" : String), v) ∈
        writesOf (zoom_out cfg0 (some ("zoom_absolute=495"))).1 → 100 ≤ v) ∧
    (100 ≤ (495 : Int) → 0 ≤ cfg0.zoom_step →
      ∀ v, (("zoom_absolute" : String), v) ∈
        writesOf (zoom_in cfg0 (some ("zoom_absolute=495"))).1 → 100 ≤ v ∧ v ≤ 500) ∧
    ((495 : Int) ≤ 500 → 0 ≤ cfg0.zoom_step →
      ∀ v, (("zoom_absolute" : String), v) ∈
        writesOf (zoom_out cfg0 (some ("zoom_absolute=495"))).1 → 100 ≤ v ∧ v ≤ 500)) :=
  ⟨by decide, claim_C2_zoom_bounds cfg0 (some ("zoom_absolute=495")) 495 (by decide)⟩

/-- C3 counterexample: the round-trip claim fails for a device path with no
newline: saving device "/dev/video2 " (trailing space) and loading strips
the trailing space, so load does not reproduce the saved config. -/
theorem claim_C3_counterexample :
    ('\n' ∉ ("/dev/video2 " : String).toList) ∧
    load_config cfg0
        (some (save_config { device := "/dev/video2 ", pan_speed := 2,
                             tilt_speed := 3, zoom_step := 15 })) ≠
      ({ device := "/dev/video2 ", pan_speed := 2, tilt_speed := 3, zoom_step := 15 },
       false) :=
  ⟨by decide, by decide⟩

/-- C3 (amended): for every CameraConfig whose device path contains no
newline or carriage-return character and does not end in a whitespace
character, saving the config and then loading it (over any prior state)
reproduces the saved config exactly, with no parse failure. -/
theorem claim_C3_roundtrip (base cfg : CameraConfig)
    (hnl : '\n' ∉ cfg.device.toList) (hcr : '\r' ∉ cfg.device.toList)
    (hlast : ∀ c, cfg.device.toList.getLast? = some c → isPySpace c = false) :
    load_config base (some (save_config cfg)) = (cfg, false) :=
  save_load_roundtrip base cfg hnl hcr hlast

theorem claim_C3_roundtrip_witness :
    load_config cfg0
        (some (save_config { device := "/dev/video2", pan_speed := 2,
                             tilt_speed := 3, zoom_step := 15 })) =
      ({ device := "/dev/video2", pan_speed := 2, tilt_speed := 3, zoom_step := 15 },
       false) :=
  claim_C3_roundtrip cfg0
    { device := "/dev/video2", pan_speed := 2, tilt_speed := 3, zoom_step := 15 }
    (by decide) (by decide)
    (fun c hc => by
      rw [(rfl : ("/dev/video2" : String).toList.getLast? = some '2')] at hc
      cases hc
      decide)

/-- C4: when the product-marker search fails, find_camera probes the
enumerated devices in order and selects the first whose control listing is
truthy and contains pan_speed — in particular the position of the other,
non-matching devices is irrelevant — sets it as the device, writes the
updated config file, and returns true. -/
theorem claim_C4_probe_first_match (cfg : CameraConfig) (out : String)
    (pre : List String) (d : String) (post : List String)
    (ctrls : String → Option String)
    (hmark : containsStr out ("BCC950") = true → bcc950Search out.toList = none)
    (hpre : ∀ x ∈ pre, matchesB ctrls x = false) (hd : matchesB ctrls d = true) :
    find_camera cfg (some out) (pre ++ d :: post) ctrls =
      some ({ cfg with device := d },
            some (save_config { cfg with device := d }), true) := by
  rw [find_camera_probe cfg out _ ctrls hmark,
    probe_first_match cfg ctrls pre d post hpre hd]

theorem claim_C4_probe_first_match_witness :
    (∀ x ∈ ["/dev/video1"], matchesB probeCtrls x = false) ∧
    matchesB probeCtrls ("/dev/video3") = true ∧
    find_camera cfg0 (some ("Integrated Camera (usb-0001):\n\t/dev/video1\n"))
        (["/dev/video1", "/dev/video3", "/dev/video0"]) probeCtrls =
      some ({ cfg0 with device := "/dev/video3" },
            some (save_config { cfg0 with device := "/dev/video3" }), true) :=
  ⟨by decide, by decide,
    claim_C4_probe_first_match cfg0 ("Integrated Camera (usb-0001):\n\t/dev/video1\n")
      (["/dev/video1"]) ("/dev/video3") (["/dev/video0"]) probeCtrls
      (by decide) (by decide) (by decide)⟩

/-- C5: a config file containing a PAN_SPEED, TILT_SPEED or ZOOM_STEP line
whose value is not a parseable integer makes the whole load fail with the
raised parse error, rather than completing normally or substituting a
default for the malformed field. -/
theorem claim_C5_malformed_int_raises (cfg : CameraConfig) (content : String)
    (h : ∃ l ∈ pyLines content, badIntLineB l = true) :
    (load_config cfg (some content)).2 = true := by
  have h0 : load_config cfg (some content) = loadLines cfg (pyLines content) := rfl
  rw [h0]
  exact loadLines_raises (pyLines content) cfg h

theorem claim_C5_malformed_int_raises_witness :
    (∃ l ∈ pyLines ("DEVICE=/dev/video2\nPAN_SPEED=fast\n"), badIntLineB l = true) ∧
    (load_config cfg0 (some ("DEVICE=/dev/video2\nPAN_SPEED=fast\n"))).2 = true :=
  ⟨by decide,
    claim_C5_malformed_int_raises cfg0 ("DEVICE=/dev/video2\nPAN_SPEED=fast\n") (by decide)⟩

/-- C6: with no config file the controller ends up with the built-in
defaults (device "/dev/video0", panSpeed 1, tiltSpeed 1, zoomStep 10); with
a file of well-formed lines, each field whose key appears takes the parsed
value of its (last) line and each field whose key is absent keeps its
default, with no parse failure. -/
theorem claim_C6_defaults_and_parsed :
    controllerInit none none =
      ({ device := defaultDevice, pan_speed := 1, tilt_speed := 1, zoom_step := 10 },
       false) ∧
    ∀ content : String, (∀ l ∈ pyLines content, badIntLineB l = false) →
      controllerInit none (some content) =
        (specLoad (initDefaults none) (pyLines content), false) := by
  constructor
  · rfl
  · intro content h
    have h0 : controllerInit none (some content)
        = loadLines (initDefaults none) (pyLines content) := rfl
    rw [h0]
    exact loadLines_good (pyLines content) (initDefaults none) h

theorem claim_C6_defaults_and_parsed_witness :
    (∀ l ∈ pyLines ("DEVICE=/dev/video5\nZOOM_STEP=20"), badIntLineB l = false) ∧
    controllerInit none (some ("DEVICE=/dev/video5\nZOOM_STEP=20")) =
      (specLoad (initDefaults none) (pyLines ("DEVICE=/dev/video5\nZOOM_STEP=20")), false) ∧
    specLoad (initDefaults none) (pyLines ("DEVICE=/dev/video5\nZOOM_STEP=20")) =
      { device := "/dev/video5", pan_speed := 1, tilt_speed := 1, zoom_step := 20 } :=
  ⟨by decide,
    claim_C6_defaults_and_parsed.2 ("DEVICE=/dev/video5\nZOOM_STEP=20") (by decide),
    by decide⟩

/-- C7: whenever the get-control reply is not of the recognized name=value
shape (including a failed utility invocation, where no text is available),
the zoom read raises the parse error and the maneuver issues no control
write at all; only the command of that read fails. -/
theorem claim_C7_parse_failure (cfg : CameraConfig) (reply : Option String)
    (h : parseControlReply reply = none) :
    zoom_in cfg reply = ([CamCmd.getCtrl cfg.device ("zoom_absolute")], true) ∧
    zoom_out cfg reply = ([CamCmd.getCtrl cfg.device ("zoom_absolute")], true) ∧
    writesOf (zoom_in cfg reply).1 = [] ∧
    writesOf (zoom_out cfg reply).1 = [] := by
  unfold zoom_in zoom_out
  rw [h]
  exact ⟨rfl, rfl, rfl, rfl⟩

theorem claim_C7_parse_failure_witness :
    parseControlReply (some ("Error running command")) = none ∧
    parseControlReply none = none ∧
    zoom_in cfg0 (some ("Error running command")) =
      ([CamCmd.getCtrl cfg0.device ("zoom_absolute")], true) ∧
    writesOf (zoom_out cfg0 none).1 = [] :=
  ⟨by decide, by decide,
    (claim_C7_parse_failure cfg0 (some ("Error running command")) (by decide)).1,
    (claim_C7_parse_failure cfg0 none (by decide)).2.2.2⟩

/-- C8: reset_position issues exactly 4 pan_speed writes with values
+1, 0, -1, 0, then exactly 4 tilt_speed writes with values +1, 0, -1, 0,
then exactly 1 zoom_absolute write with value 100, in that order, and no
other control writes. -/
theorem claim_C8_reset_sequence (cfg : CameraConfig) :
    writesOf (reset_position cfg) =
      [(("pan_speed" : String), 1), (("pan_speed" : String), 0),
       (("pan_speed" : String), -1), (("pan_speed" : String), 0),
       (("tilt_speed" : String), 1), (("tilt_speed" : String), 0),
       (("tilt_speed" : String), -1), (("tilt_speed" : String), 0),
       (("zoom_absolute" : String), 100)] := rfl

/-- C9 counterexample: passing the empty string as the explicit device path
with no config file present does not keep the explicit argument — Python
`device or "/dev/video0"` discards it — so the claim that the explicit
argument takes effect whenever the config file is absent fails at "". -/
theorem claim_C9_counterexample :
    (controllerInit (some ("")) none).1.device = defaultDevice ∧
    defaultDevice ≠ ("" : String) :=
  ⟨rfl, by decide⟩

/-- C9 (amended): for a NON-EMPTY explicitly supplied device path, a present
config file with well-formed lines and a DEVICE line silently overwrites the
explicit path with the value from the file during construction, and the explicit
argument takes effect exactly when the config file is absent or has no
DEVICE line. -/
theorem claim_C9_device_override (d : String) (hd : d ≠ ("" : String)) :
    (∀ content : String, (∀ l ∈ pyLines content, badIntLineB l = false) →
      (∀ v, lastValFor keyDEVICE (pyLines content) = some v →
        (controllerInit (some d) (some content)).1.device = (⟨v⟩ : String)) ∧
      (lastValFor keyDEVICE (pyLines content) = none →
        (controllerInit (some d) (some content)).1.device = d)) ∧
    (controllerInit (some d) none).1.device = d := by
  have hdev : (initDefaults (some d)).device = d := by
    show (if d = ("" : String) then defaultDevice else d) = d
    rw [if_neg hd]
  constructor
  · intro content h
    have h0 : controllerInit (some d) (some content)
        = loadLines (initDefaults (some d)) (pyLines content) := rfl
    have hchar := loadLines_good (pyLines content) (initDefaults (some d)) h
    constructor
    · intro v hv
      rw [h0, hchar]
      show fromLast (lastValFor keyDEVICE (pyLines content)) (fun w => (⟨w⟩ : String))
        (initDefaults (some d)).device = (⟨v⟩ : String)
      rw [hv]
      rfl
    · intro hnone
      rw [h0, hchar]
      show fromLast (lastValFor keyDEVICE (pyLines content)) (fun w => (⟨w⟩ : String))
        (initDefaults (some d)).device = d
      rw [hnone]
      exact hdev
  · exact hdev

theorem claim_C9_device_override_witness :
    (("/dev/video9" : String) ≠ ("" : String)) ∧
    (∀ l ∈ pyLines ("DEVICE=/dev/video1"), badIntLineB l = false) ∧
    lastValFor keyDEVICE (pyLines ("DEVICE=/dev/video1")) =
      some (("/dev/video1" : String).toList) ∧
    (controllerInit (some ("/dev/video9")) (some ("DEVICE=/dev/video1"))).1.device =
      ("/dev/video1" : String) ∧
    (controllerInit (some ("/dev/video9")) none).1.device = ("/dev/video9" : String) := by
  refine ⟨by decide, by decide, by decide, ?_, ?_⟩
  · exact ((claim_C9_device_override ("/dev/video9") (by decide)).1
      ("DEVICE=/dev/video1") (by decide)).1 (("/dev/video1" : String).toList) (by decide)
  · exact (claim_C9_device_override ("/dev/video9") (by decide)).2

/-- C10: config load is not atomic on failure: for a file whose lines split
as well-formed lines `pre`, then a malformed integer line, then anything,
the load raises with the configuration already holding the values parsed
from `pre` (a mix of newly parsed and prior values), not the pre-load
state. -/
theorem claim_C10_partial_load (cfg : CameraConfig) (content : String)
    (pre : List (List Char)) (bad : List Char) (rest : List (List Char))
    (hsplit : pyLines content = pre ++ bad :: rest)
    (hpre : ∀ l ∈ pre, badIntLineB l = false) (hbad : badIntLineB bad = true) :
    load_config cfg (some content) = (specLoad cfg pre, true) := by
  have h0 : load_config cfg (some content) = loadLines cfg (pyLines content) := rfl
  rw [h0, hsplit]
  exact loadLines_prefix_bad pre cfg bad rest hpre hbad

theorem claim_C10_partial_load_witness :
    pyLines c10content = c10pre ++ c10bad :: c10rest ∧
    load_config cfg0 (some c10content) = (specLoad cfg0 c10pre, true) ∧
    specLoad cfg0 c10pre =
      { device := defaultDevice, pan_speed := 2, tilt_speed := 1, zoom_step := 10 } :=
  ⟨by decide,
    claim_C10_partial_load cfg0 c10content c10pre c10bad c10rest
      (by decide) (by decide) (by decide),
    by decide⟩
